import Mathlib

/-!
Shallow embedding of the Pokemon club battle service (src/main.py).

The relational store is modelled as a `Store` record holding the `trainers`
and `battles` tables as lists in row (insertion) order, together with the
autoincrement counters and a clock for `created_at` timestamps.  Python
integers are modelled as `Int`, strings as Lean `String` (compared through
their underlying character lists, since SQLite BINARY collation and Python
string comparison are both code-point lexicographic), and nullable columns
as `Option`.  Each FastAPI handler becomes a pure function from the store
and the request payload to the resulting store and response; an
`HTTPException` raised by the Python code becomes an error value returned
together with the store as it is at the moment of the raise.
-/

/-- Lowercase a single character, as Python str.lower does on ASCII letters
(the only case exercised by the code and the spec examples). -/
def lowerChar (c : Char) : Char :=
  if 65 ≤ c.toNat ∧ c.toNat ≤ 90 then Char.ofNat (c.toNat + 32) else c

/-- Strict lexicographic order on character lists by code point.  This is
Python string comparison and also SQLite BINARY collation order on UTF-8. -/
def charsLt : List Char → List Char → Bool
  | _, [] => false
  | [], _ :: _ => true
  | a :: as, b :: bs => a.toNat < b.toNat || (a.toNat == b.toNat && charsLt as bs)

theorem charsLt_irrefl : ∀ as, charsLt as as = false
  | [] => rfl
  | a :: as => by simp [charsLt, charsLt_irrefl as]

theorem charsLt_trans : ∀ as bs cs, charsLt as bs = true → charsLt bs cs = true →
    charsLt as cs = true
  | _, [], _, hab, _ => by simp [charsLt] at hab
  | _, _ :: _, [], _, hbc => by simp [charsLt] at hbc
  | [], b :: bs, c :: cs, _, _ => by simp [charsLt]
  | a :: as, b :: bs, c :: cs, hab, hbc => by
    simp only [charsLt, Bool.or_eq_true, Bool.and_eq_true, decide_eq_true_eq,
      beq_iff_eq] at hab hbc ⊢
    rcases hab with h1 | ⟨h1, h1'⟩ <;> rcases hbc with h2 | ⟨h2, h2'⟩
    · exact Or.inl (Nat.lt_trans h1 h2)
    · exact Or.inl (h2 ▸ h1)
    · exact Or.inl (h1 ▸ h2)
    · exact Or.inr ⟨h1.trans h2, charsLt_trans as bs cs h1' h2'⟩

theorem char_toNat_inj {a b : Char} (h : a.toNat = b.toNat) : a = b :=
  Char.ext (UInt32.ext h)

theorem charsLt_connex : ∀ as bs, charsLt as bs = false → charsLt bs as = false →
    as = bs
  | [], [], _, _ => rfl
  | [], _ :: _, hab, _ => by simp [charsLt] at hab
  | _ :: _, [], _, hba => by simp [charsLt] at hba
  | a :: as, b :: bs, hab, hba => by
    simp only [charsLt, Bool.or_eq_false_iff, Bool.and_eq_false_iff,
      decide_eq_false_iff_not, beq_eq_false_iff_ne, ne_eq] at hab hba
    have hEq : a.toNat = b.toNat := by omega
    rcases hab.2 with h | h
    · exact absurd hEq h
    · rcases hba.2 with h' | h'
      · exact absurd hEq.symm h'
      · exact by rw [char_toNat_inj hEq, charsLt_connex as bs h h']

theorem charsLt_asymm {as bs : List Char} (h : charsLt as bs = true) :
    charsLt bs as = false := by
  by_contra hba
  have := charsLt_trans as bs as h (Bool.of_not_eq_false hba)
  simp [charsLt_irrefl] at this

/-- Strict lexicographic comparison of the sort keys used by the code: a
key is a pair of (negated) integer counters followed by a character list. -/
def sortKeyLt (a b : Int × Int × List Char) : Bool :=
  decide (a.1 < b.1) ||
    (decide (a.1 = b.1) &&
      (decide (a.2.1 < b.2.1) ||
        (decide (a.2.1 = b.2.1) && charsLt a.2.2 b.2.2)))

theorem sortKeyLt_trans {a b c : Int × Int × List Char}
    (hab : sortKeyLt a b = true) (hbc : sortKeyLt b c = true) :
    sortKeyLt a c = true := by
  simp only [sortKeyLt, Bool.or_eq_true, Bool.and_eq_true, decide_eq_true_eq] at hab hbc ⊢
  rcases hab with h1 | ⟨h1, h2 | ⟨h2, h3⟩⟩ <;>
    rcases hbc with g1 | ⟨g1, g2 | ⟨g2, g3⟩⟩ <;>
      try (left; omega)
  · right; exact ⟨by omega, Or.inl (by omega)⟩
  · right; exact ⟨by omega, Or.inl (by omega)⟩
  · right; exact ⟨by omega, Or.inl (by omega)⟩
  · right; exact ⟨by omega, Or.inr ⟨by omega, charsLt_trans _ _ _ h3 g3⟩⟩

theorem sortKeyLt_connex {a b : Int × Int × List Char}
    (hab : sortKeyLt a b = false) (hba : sortKeyLt b a = false) : a = b := by
  simp only [sortKeyLt, Bool.or_eq_false_iff, Bool.and_eq_false_iff,
    decide_eq_false_iff_not, not_lt] at hab hba
  obtain ⟨h1, h2⟩ := hab
  obtain ⟨g1, g2⟩ := hba
  have e1 : a.1 = b.1 := le_antisymm g1 h1
  rcases h2 with h2 | ⟨h2a, h3⟩
  · exact absurd e1 h2
  rcases g2 with g2 | ⟨g2a, g3⟩
  · exact absurd e1.symm g2
  have e2 : a.2.1 = b.2.1 := le_antisymm g2a h2a
  rcases h3 with h3 | h4
  · exact absurd e2 h3
  rcases g3 with g3 | g4
  · exact absurd e2.symm g3
  have e3 : a.2.2 = b.2.2 := charsLt_connex _ _ h4 g4
  obtain ⟨a1, a2, a3⟩ := a
  obtain ⟨b1, b2, b3⟩ := b
  simp only at e1 e2 e3
  simp [e1, e2, e3]

theorem sortKeyLt_asymm {a b : Int × Int × List Char}
    (h : sortKeyLt a b = true) : sortKeyLt b a = false := by
  by_contra hba
  have hba' := Bool.of_not_eq_false hba
  have h2 := sortKeyLt_trans h hba'
  have hirr : sortKeyLt a a = false := by
    simp [sortKeyLt, charsLt_irrefl]
  exact absurd h2 (by simp [hirr])

-- ---------- DATA MODEL (tables and request schemas) ----------

/-- A row of the trainers table. -/
structure Trainer where
  id : Nat
  name : String
  grade : Option Int
  nickname : Option String
  showdown_name : Option String
  wins : Int
  losses : Int
  rank_points : Int
deriving DecidableEq

/-- A row of the battles table. -/
structure Battle where
  id : Nat
  trainer1_id : Nat
  trainer2_id : Nat
  winner_id : Nat
  format : Option String
  replay_url : Option String
  created_at : Nat
deriving DecidableEq

/-- The persistent store: both tables in row order plus autoincrement
counters and the clock used for created_at. -/
structure Store where
  trainers : List Trainer
  battles : List Battle
  next_trainer_id : Nat
  next_battle_id : Nat
  now : Nat
deriving DecidableEq

/-- Request body for POST /trainers. -/
structure TrainerCreate where
  name : String
  grade : Option Int
  nickname : Option String
  showdown_name : Option String
deriving DecidableEq

/-- Request body for PATCH /trainers: an outer none means the field was
not sent (pydantic exclude_unset), an inner none means it was sent null. -/
structure TrainerUpdate where
  name : Option String
  grade : Option (Option Int)
  nickname : Option (Option String)
  showdown_name : Option (Option String)
deriving DecidableEq

/-- Request body for POST /battles. -/
structure BattleCreate where
  trainer1_id : Nat
  trainer2_id : Nat
  winner_id : Nat
  format : Option String
  replay_url : Option String
deriving DecidableEq

/-- One suggested pairing; trainer2_id none means a bye. -/
structure Pairing where
  trainer1_id : Nat
  trainer2_id : Option Nat
deriving DecidableEq

/-- A raised fastapi HTTPException. -/
structure HTTPException where
  status_code : Nat
  detail : String
deriving DecidableEq

-- ---------- RANKING ORDERS ----------

/-- Sort key used by create_pairings: Python lambda
(-t.rank_points, -t.wins, t.name.lower()). -/
def pairingKey (t : Trainer) : Int × Int × List Char :=
  (-t.rank_points, -t.wins, t.name.data.map lowerChar)

/-- Sort key realizing the SQL clause ORDER BY rank_points DESC, wins DESC,
name ASC used by the leaderboard (SQLite BINARY collation on name). -/
def leaderboardKey (t : Trainer) : Int × Int × List Char :=
  (-t.rank_points, -t.wins, t.name.data)

/-- Output order of the pairing sort: t before u unless the key of u is
strictly smaller (Python sorted with the pairing key, a stable sort). -/
def pairingLe (t u : Trainer) : Prop :=
  sortKeyLt (pairingKey u) (pairingKey t) = false

/-- Output order of the leaderboard query: t before u unless the key of u
is strictly smaller. -/
def leaderboardLe (t u : Trainer) : Prop :=
  sortKeyLt (leaderboardKey u) (leaderboardKey t) = false

instance : DecidableRel pairingLe := fun t u => by
  unfold pairingLe; infer_instance

instance : DecidableRel leaderboardLe := fun t u => by
  unfold leaderboardLe; infer_instance

theorem keyLe_total (k : Trainer → Int × Int × List Char) (t u : Trainer) :
    sortKeyLt (k u) (k t) = false ∨ sortKeyLt (k t) (k u) = false := by
  cases h : sortKeyLt (k u) (k t)
  · exact Or.inl rfl
  · exact Or.inr (sortKeyLt_asymm h)

theorem keyLe_trans (k : Trainer → Int × Int × List Char) (t u v : Trainer)
    (htu : sortKeyLt (k u) (k t) = false) (huv : sortKeyLt (k v) (k u) = false) :
    sortKeyLt (k v) (k t) = false := by
  cases hvt : sortKeyLt (k v) (k t)
  · rfl
  · exfalso
    cases huv' : sortKeyLt (k u) (k v)
    · have := sortKeyLt_connex huv' huv
      rw [this] at htu
      rw [htu] at hvt
      cases hvt
    · have := sortKeyLt_trans huv' hvt
      rw [this] at htu
      cases htu

instance : IsTotal Trainer pairingLe :=
  ⟨fun t u => keyLe_total pairingKey t u⟩

instance : IsTrans Trainer pairingLe :=
  ⟨fun t u v htu huv => keyLe_trans pairingKey t u v htu huv⟩

instance : IsTotal Trainer leaderboardLe :=
  ⟨fun t u => keyLe_total leaderboardKey t u⟩

instance : IsTrans Trainer leaderboardLe :=
  ⟨fun t u v htu huv => keyLe_trans leaderboardKey t u v htu huv⟩

deriving instance DecidableEq for Except

-- ---------- HELPERS ----------

/-- db.query(Trainer).filter(Trainer.id == tid).first() -/
def findTrainer (db : Store) (tid : Nat) : Option Trainer :=
  db.trainers.find? (fun t => t.id == tid)

/-- The mutation winner.wins += 1; winner.rank_points += 3. -/
def creditWin (t : Trainer) : Trainer :=
  { t with wins := t.wins + 1, rank_points := t.rank_points + 3 }

/-- The mutation loser.losses += 1; loser.rank_points += 1. -/
def creditLoss (t : Trainer) : Trainer :=
  { t with losses := t.losses + 1, rank_points := t.rank_points + 1 }

/-- _apply_battle_result: look up both participants and the declared
winner, raise 400 when a lookup fails or the winner is neither
participant (state unchanged), otherwise credit the win, credit the loss
and commit.  The result is the store at exit plus the raised exception,
if any. -/
def _apply_battle_result (db : Store) (battle : Battle) :
    Store × Option HTTPException :=
  match findTrainer db battle.trainer1_id, findTrainer db battle.trainer2_id,
      findTrainer db battle.winner_id with
  | some t1, some t2, some winner =>
    if winner.id ≠ t1.id ∧ winner.id ≠ t2.id then
      (db, some ⟨400, "Winner must be one of the two trainers."⟩)
    else
      let loser_id := if winner.id = t2.id then t1.id else t2.id
      let afterWin := db.trainers.map
        (fun t => if t.id = winner.id then creditWin t else t)
      let afterLoss := afterWin.map
        (fun t => if t.id = loser_id then creditLoss t else t)
      ({ db with trainers := afterLoss }, none)
  | _, _, _ => (db, some ⟨400, "Invalid trainer ID(s) in battle result."⟩)

-- ---------- ROUTES ----------

/-- POST /trainers: insert a row with fresh id and zero counters. -/
def create_trainer (db : Store) (trainer : TrainerCreate) : Store × Trainer :=
  let db_trainer : Trainer :=
    { id := db.next_trainer_id, name := trainer.name, grade := trainer.grade,
      nickname := trainer.nickname, showdown_name := trainer.showdown_name,
      wins := 0, losses := 0, rank_points := 0 }
  let db' : Store :=
    { db with
        trainers := db.trainers ++ [db_trainer],
        next_trainer_id := db.next_trainer_id + 1 }
  (db', db_trainer)

/-- setattr(trainer, field, value) for every field sent in the request. -/
def applyTrainerUpdate (update : TrainerUpdate) (t : Trainer) : Trainer :=
  { t with
    name := update.name.getD t.name,
    grade := update.grade.getD t.grade,
    nickname := update.nickname.getD t.nickname,
    showdown_name := update.showdown_name.getD t.showdown_name }

/-- PATCH /trainers/trainer_id: 404 when the row is absent, otherwise set
the sent fields and commit. -/
def update_trainer (db : Store) (trainer_id : Nat) (update : TrainerUpdate) :
    Store × Except HTTPException Trainer :=
  match findTrainer db trainer_id with
  | none => (db, .error ⟨404, "Trainer not found"⟩)
  | some t =>
    let trainers' :=
      db.trainers.map
        (fun u => if u.id = trainer_id then applyTrainerUpdate update u else u)
    ({ db with trainers := trainers' }, .ok (applyTrainerUpdate update t))

/-- GET /leaderboard: ORDER BY rank_points DESC, wins DESC, name ASC,
LIMIT limit.  The SQL sort is realized as a stable sort by the
leaderboard key. -/
def leaderboard (db : Store) (limit : Nat) : List Trainer :=
  (List.insertionSort leaderboardLe db.trainers).take limit

/-- POST /battles: validate, insert the battle row and commit, then apply
the battle result.  The store in the result is the persisted state at
exit, also when _apply_battle_result raised after the commit. -/
def create_battle (db : Store) (battle : BattleCreate) :
    Store × Except HTTPException Battle :=
  if battle.trainer1_id = battle.trainer2_id then
    (db, .error ⟨400, "A trainer cannot battle themselves."⟩)
  else if battle.winner_id ≠ battle.trainer1_id ∧
      battle.winner_id ≠ battle.trainer2_id then
    (db, .error ⟨400, "Winner must be one of the two trainers."⟩)
  else
    let db_battle : Battle :=
      { id := db.next_battle_id, trainer1_id := battle.trainer1_id,
        trainer2_id := battle.trainer2_id, winner_id := battle.winner_id,
        format := battle.format, replay_url := battle.replay_url,
        created_at := db.now }
    let db1 : Store :=
      { db with
          battles := db.battles ++ [db_battle],
          next_battle_id := db.next_battle_id + 1 }
    match _apply_battle_result db1 db_battle with
    | (db2, none) => (db2, .ok db_battle)
    | (db2, some e) => (db2, .error e)

-- ---------- PAIRINGS ----------

/-- db.query(Trainer).filter(Trainer.id.in_(trainer_ids)).all(): the rows
whose id occurs in the request, in table order. -/
def resolvedTrainers (db : Store) (trainer_ids : List Nat) : List Trainer :=
  db.trainers.filter (fun t => trainer_ids.contains t.id)

/-- The requested ids that matched no row (in request order, duplicates
kept), as computed against found_ids. -/
def missingIds (db : Store) (trainer_ids : List Nat) : List Nat :=
  trainer_ids.filter
    (fun tid => !(((resolvedTrainers db trainer_ids).map (fun t => t.id)).contains tid))

/-- The while loop pairing neighbours of the sorted list, with a bye for
an odd leftover. -/
def buildPairings : List Trainer → List Pairing
  | [] => []
  | [t] => [⟨t.id, none⟩]
  | t1 :: t2 :: rest => ⟨t1.id, some t2.id⟩ :: buildPairings rest

/-- POST /pairings: reject an empty request, reject unresolved ids naming
them, otherwise sort by the pairing key and pair neighbours. -/
def create_pairings (db : Store) (trainer_ids : List Nat) :
    Except HTTPException (List Pairing) :=
  if trainer_ids.length = 0 then
    .error ⟨400, "No trainer IDs provided."⟩
  else if missingIds db trainer_ids ≠ [] then
    .error ⟨404, "Some trainer IDs were not found: " ++
      toString (missingIds db trainer_ids)⟩
  else
    .ok (buildPairings
      (List.insertionSort pairingLe (resolvedTrainers db trainer_ids)))

-- ---------- OPERATION SEQUENCES ----------

/-- One state-changing request against the service. -/
inductive Request where
  | createTrainer (req : TrainerCreate)
  | updateTrainer (trainer_id : Nat) (update : TrainerUpdate)
  | createBattle (req : BattleCreate)

/-- The store after handling one request (responses discarded). -/
def stepStore (db : Store) : Request → Store
  | .createTrainer req => (create_trainer db req).1
  | .updateTrainer tid u => (update_trainer db tid u).1
  | .createBattle req => (create_battle db req).1

/-- The store after handling a sequence of requests. -/
def runRequests (db : Store) : List Request → Store
  | [] => db
  | r :: rs => runRequests (stepStore db r) rs

-- ---------- HELPER LEMMAS ----------

theorem findTrainer_id {db : Store} {tid : Nat} {t : Trainer}
    (h : findTrainer db tid = some t) : t.id = tid := by
  have h' : db.trainers.find? (fun u => u.id == tid) = some t := h
  have := List.find?_some h'
  simpa using this

theorem find_id_map (g : Trainer → Trainer) (hg : ∀ t, (g t).id = t.id)
    (l : List Trainer) (tid : Nat) :
    (l.map g).find? (fun t => t.id == tid) =
      (l.find? (fun t => t.id == tid)).map g := by
  rw [List.find?_map]
  have hp : ((fun t : Trainer => t.id == tid) ∘ g) = (fun t : Trainer => t.id == tid) := by
    funext t
    simp [Function.comp, hg]
  rw [hp]

theorem cond_credit_id (f : Trainer → Trainer) (hf : ∀ t, (f t).id = t.id)
    (w : Nat) (t : Trainer) :
    ((fun u => if u.id = w then f u else u) t).id = t.id := by
  by_cases h : t.id = w <;> simp [h, hf]

theorem creditWin_id (t : Trainer) : (creditWin t).id = t.id := rfl

theorem creditLoss_id (t : Trainer) : (creditLoss t).id = t.id := rfl

/-- Success case of _apply_battle_result: the three lookups succeeded, the
winner is one of the two participants, and the resulting trainer table is
the win credit followed by the loss credit. -/
theorem apply_success_shape {db : Store} {b : Battle} {db' : Store}
    (h : _apply_battle_result db b = (db', none)) :
    ∃ t1 t2 winner,
      findTrainer db b.trainer1_id = some t1 ∧
      findTrainer db b.trainer2_id = some t2 ∧
      findTrainer db b.winner_id = some winner ∧
      (winner.id = t1.id ∨ winner.id = t2.id) ∧
      db'.battles = db.battles ∧
      db'.next_trainer_id = db.next_trainer_id ∧
      db'.next_battle_id = db.next_battle_id ∧
      db'.now = db.now ∧
      db'.trainers =
        (db.trainers.map (fun t => if t.id = winner.id then creditWin t else t)).map
          (fun t =>
            if t.id = (if winner.id = t2.id then t1.id else t2.id) then creditLoss t
            else t) := by
  unfold _apply_battle_result at h
  rcases h1 : findTrainer db b.trainer1_id with _ | t1 <;> rw [h1] at h
  · simp at h
  rcases h2 : findTrainer db b.trainer2_id with _ | t2 <;> rw [h2] at h
  · simp at h
  rcases h3 : findTrainer db b.winner_id with _ | winner <;> rw [h3] at h
  · simp at h
  dsimp only at h
  by_cases hguard : winner.id ≠ t1.id ∧ winner.id ≠ t2.id
  · rw [if_pos hguard] at h
    simp at h
  · rw [if_neg hguard] at h
    push_neg at hguard
    injection h with hdb hnone
    subst hdb
    refine ⟨t1, t2, winner, rfl, rfl, rfl, ?_, rfl, rfl, rfl, rfl, rfl⟩
    by_cases hw1 : winner.id = t1.id
    · exact Or.inl hw1
    · exact Or.inr (hguard hw1)

theorem find_after_credits (l : List Trainer) (w ld tid : Nat) :
    ((l.map (fun t => if t.id = w then creditWin t else t)).map
        (fun t => if t.id = ld then creditLoss t else t)).find?
      (fun t => t.id == tid) =
    (l.find? (fun t => t.id == tid)).map
      ((fun t => if t.id = ld then creditLoss t else t) ∘
        (fun t => if t.id = w then creditWin t else t)) := by
  rw [List.map_map]
  apply find_id_map
  intro t
  by_cases hw : t.id = w <;> by_cases hl : t.id = ld <;>
    simp [Function.comp, hw, hl, creditWin, creditLoss] <;>
      split <;> simp_all [creditWin]

-- ---------- CLAIM THEOREMS ----------

/-- Claim C1: for a battle whose two participant ids resolve to distinct
trainers and whose declared winner is one of the two, applying the result
succeeds, the winner gains exactly one win and three rank points with
losses unchanged, and the loser gains exactly one loss and one rank point
with wins unchanged; winner and loser are the two distinct participants,
so exactly one of the two gains three points and the other gains one. -/
theorem apply_battle_result_scoring (db : Store) (b : Battle) (t1 t2 : Trainer)
    (h1 : findTrainer db b.trainer1_id = some t1)
    (h2 : findTrainer db b.trainer2_id = some t2)
    (hne : t1.id ≠ t2.id)
    (hw : b.winner_id = b.trainer1_id ∨ b.winner_id = b.trainer2_id) :
    ∃ db' w l, _apply_battle_result db b = (db', none) ∧
      ((b.winner_id = b.trainer1_id ∧ w = t1 ∧ l = t2) ∨
        (b.winner_id = b.trainer2_id ∧ w = t2 ∧ l = t1)) ∧
      w.id ≠ l.id ∧
      findTrainer db' w.id = some (creditWin w) ∧
      findTrainer db' l.id = some (creditLoss l) ∧
      (creditWin w).wins = w.wins + 1 ∧
      (creditWin w).losses = w.losses ∧
      (creditWin w).rank_points = w.rank_points + 3 ∧
      (creditLoss l).losses = l.losses + 1 ∧
      (creditLoss l).wins = l.wins ∧
      (creditLoss l).rank_points = l.rank_points + 1 := by
  have ht1 : t1.id = b.trainer1_id := findTrainer_id h1
  have ht2 : t2.id = b.trainer2_id := findTrainer_id h2
  have hne' : t2.id ≠ t1.id := Ne.symm hne
  have hf1 : db.trainers.find? (fun t => t.id == t1.id) = some t1 := by
    rw [ht1]; exact h1
  have hf2 : db.trainers.find? (fun t => t.id == t2.id) = some t2 := by
    rw [ht2]; exact h2
  rcases hw with hw | hw
  · have hwf : findTrainer db b.winner_id = some t1 := by rw [hw]; exact h1
    have happ : _apply_battle_result db b =
        ({ db with trainers := (db.trainers.map (fun t => if t.id = t1.id then creditWin t else t)).map (fun t => if t.id = t2.id then creditLoss t else t) }, none) := by
      unfold _apply_battle_result
      rw [h1, h2, hwf]
      dsimp only
      rw [if_neg (by simp)]
      have e : (if t1.id = t2.id then t1.id else t2.id) = t2.id := if_neg hne
      simp only [e]
    refine ⟨_, t1, t2, happ, Or.inl ⟨hw, rfl, rfl⟩, hne, ?_, ?_,
      rfl, rfl, rfl, rfl, rfl, rfl⟩
    · show ((db.trainers.map (fun t => if t.id = t1.id then creditWin t else t)).map (fun t => if t.id = t2.id then creditLoss t else t)).find? (fun t => t.id == t1.id) = some (creditWin t1)
      rw [find_after_credits, hf1]
      simp [Function.comp, creditWin, hne]
    · show ((db.trainers.map (fun t => if t.id = t1.id then creditWin t else t)).map (fun t => if t.id = t2.id then creditLoss t else t)).find? (fun t => t.id == t2.id) = some (creditLoss t2)
      rw [find_after_credits, hf2]
      simp [Function.comp, hne']
  · have hwf : findTrainer db b.winner_id = some t2 := by rw [hw]; exact h2
    have happ : _apply_battle_result db b =
        ({ db with trainers := (db.trainers.map (fun t => if t.id = t2.id then creditWin t else t)).map (fun t => if t.id = t1.id then creditLoss t else t) }, none) := by
      unfold _apply_battle_result
      rw [h1, h2, hwf]
      dsimp only
      rw [if_neg (by simp)]
      simp
    refine ⟨_, t2, t1, happ, Or.inr ⟨hw, rfl, rfl⟩, hne', ?_, ?_,
      rfl, rfl, rfl, rfl, rfl, rfl⟩
    · show ((db.trainers.map (fun t => if t.id = t2.id then creditWin t else t)).map (fun t => if t.id = t1.id then creditLoss t else t)).find? (fun t => t.id == t2.id) = some (creditWin t2)
      rw [find_after_credits, hf2]
      simp [Function.comp, creditWin, hne']
    · show ((db.trainers.map (fun t => if t.id = t2.id then creditWin t else t)).map (fun t => if t.id = t1.id then creditLoss t else t)).find? (fun t => t.id == t1.id) = some (creditLoss t1)
      rw [find_after_credits, hf1]
      simp [Function.comp, hne]

/-- A two-trainer fixture used to instantiate the battle theorems. -/
def demoAsh : Trainer := ⟨1, "Ash", none, none, none, 2, 1, 7⟩

def demoGary : Trainer := ⟨2, "Gary", none, none, none, 1, 2, 5⟩

def demoStore : Store := ⟨[demoAsh, demoGary], [], 3, 1, 0⟩

def demoBattle : Battle := ⟨1, 1, 2, 1, none, none, 0⟩

/-- Witness for claim C1 at the two-trainer fixture. -/
theorem apply_battle_result_scoring_witness :
    ∃ db' w l, _apply_battle_result demoStore demoBattle = (db', none) ∧
      ((demoBattle.winner_id = demoBattle.trainer1_id ∧ w = demoAsh ∧ l = demoGary) ∨
        (demoBattle.winner_id = demoBattle.trainer2_id ∧ w = demoGary ∧ l = demoAsh)) ∧
      w.id ≠ l.id ∧
      findTrainer db' w.id = some (creditWin w) ∧
      findTrainer db' l.id = some (creditLoss l) ∧
      (creditWin w).wins = w.wins + 1 ∧
      (creditWin w).losses = w.losses ∧
      (creditWin w).rank_points = w.rank_points + 3 ∧
      (creditLoss l).losses = l.losses + 1 ∧
      (creditLoss l).wins = l.wins ∧
      (creditLoss l).rank_points = l.rank_points + 1 :=
  apply_battle_result_scoring demoStore demoBattle demoAsh demoGary
    (by decide) (by decide) (by decide) (Or.inl (by decide))

/-- Claim C2: result application fails exactly when some participant id
does not resolve or the declared winner id is neither participant id, and
a failing application returns the store unchanged, so both participant
records keep their wins, losses and rank points. -/
theorem apply_battle_result_fails_iff (db : Store) (b : Battle) :
    ((_apply_battle_result db b).2.isSome ↔
      (findTrainer db b.trainer1_id = none ∨ findTrainer db b.trainer2_id = none ∨
        (b.winner_id ≠ b.trainer1_id ∧ b.winner_id ≠ b.trainer2_id))) ∧
    ((_apply_battle_result db b).2.isSome → (_apply_battle_result db b).1 = db) := by
  unfold _apply_battle_result
  rcases h1 : findTrainer db b.trainer1_id with _ | t1
  · simp
  rcases h2 : findTrainer db b.trainer2_id with _ | t2
  · simp
  rcases h3 : findTrainer db b.winner_id with _ | winner
  · refine ⟨?_, fun _ => rfl⟩
    simp only [Option.isSome_some, true_iff]
    right; right
    constructor
    · intro hEq
      rw [hEq, h1] at h3
      cases h3
    · intro hEq
      rw [hEq, h2] at h3
      cases h3
  have e1 : t1.id = b.trainer1_id := findTrainer_id h1
  have e2 : t2.id = b.trainer2_id := findTrainer_id h2
  have ew : winner.id = b.winner_id := findTrainer_id h3
  dsimp only
  by_cases hg : winner.id ≠ t1.id ∧ winner.id ≠ t2.id
  · rw [if_pos hg]
    refine ⟨?_, fun _ => rfl⟩
    simp only [Option.isSome_some, true_iff]
    right; right
    rw [← ew, ← e1, ← e2]
    exact hg
  · rw [if_neg hg]
    push_neg at hg
    constructor
    · simp only [Option.isSome_none, Bool.false_eq_true, false_iff]
      push_neg
      refine ⟨by simp, by simp, ?_⟩
      intro hne1
      rw [← ew, ← e2]
      rw [← ew, ← e1] at hne1
      exact hg hne1
    · intro habs
      simp at habs

/-- Witness for claim C2: on a battle referencing an absent trainer the
application reports an error and returns the store unchanged. -/
theorem apply_battle_result_fails_iff_witness :
    (_apply_battle_result demoStore ⟨1, 1, 9, 1, none, none, 0⟩).2.isSome ∧
      (_apply_battle_result demoStore ⟨1, 1, 9, 1, none, none, 0⟩).1 = demoStore :=
  ⟨(apply_battle_result_fails_iff demoStore ⟨1, 1, 9, 1, none, none, 0⟩).1.mpr
      (Or.inr (Or.inl (by decide))),
    (apply_battle_result_fails_iff demoStore ⟨1, 1, 9, 1, none, none, 0⟩).2
      ((apply_battle_result_fails_iff demoStore ⟨1, 1, 9, 1, none, none, 0⟩).1.mpr
        (Or.inr (Or.inl (by decide))))⟩

theorem condWin_fields (w : Nat) (t : Trainer) :
    (if t.id = w then creditWin t else t).id = t.id ∧
    (if t.id = w then creditWin t else t).name = t.name ∧
    (if t.id = w then creditWin t else t).grade = t.grade ∧
    (if t.id = w then creditWin t else t).nickname = t.nickname ∧
    (if t.id = w then creditWin t else t).showdown_name = t.showdown_name := by
  by_cases h : t.id = w <;> simp [h, creditWin]

theorem condLoss_fields (ld : Nat) (t : Trainer) :
    (if t.id = ld then creditLoss t else t).id = t.id ∧
    (if t.id = ld then creditLoss t else t).name = t.name ∧
    (if t.id = ld then creditLoss t else t).grade = t.grade ∧
    (if t.id = ld then creditLoss t else t).nickname = t.nickname ∧
    (if t.id = ld then creditLoss t else t).showdown_name = t.showdown_name := by
  by_cases h : t.id = ld <;> simp [h, creditLoss]

/-- Claim C9: a successful result application keeps the battles table and
the trainer row order, preserves id, name, grade, nickname and
showdown_name of every trainer, and leaves every trainer whose id is not
one of the two participant ids entirely unchanged; only wins, losses and
rank_points of the two participants can change. -/
theorem apply_battle_result_frame (db : Store) (b : Battle) (db' : Store)
    (h : _apply_battle_result db b = (db', none)) :
    db'.battles = db.battles ∧
    db'.trainers.length = db.trainers.length ∧
    ∀ i (hi : i < db.trainers.length) (hi' : i < db'.trainers.length),
      ((db'.trainers.get ⟨i, hi'⟩).id = (db.trainers.get ⟨i, hi⟩).id ∧
        (db'.trainers.get ⟨i, hi'⟩).name = (db.trainers.get ⟨i, hi⟩).name ∧
        (db'.trainers.get ⟨i, hi'⟩).grade = (db.trainers.get ⟨i, hi⟩).grade ∧
        (db'.trainers.get ⟨i, hi'⟩).nickname = (db.trainers.get ⟨i, hi⟩).nickname ∧
        (db'.trainers.get ⟨i, hi'⟩).showdown_name =
          (db.trainers.get ⟨i, hi⟩).showdown_name) ∧
      ((db.trainers.get ⟨i, hi⟩).id ≠ b.trainer1_id ∧
          (db.trainers.get ⟨i, hi⟩).id ≠ b.trainer2_id →
        db'.trainers.get ⟨i, hi'⟩ = db.trainers.get ⟨i, hi⟩) := by
  obtain ⟨t1, t2, winner, h1, h2, h3, hwid, hbat, _, _, _, htr⟩ := apply_success_shape h
  have e1 : t1.id = b.trainer1_id := findTrainer_id h1
  have e2 : t2.id = b.trainer2_id := findTrainer_id h2
  refine ⟨hbat, by rw [htr]; simp, ?_⟩
  intro i hi hi'
  have hval : db'.trainers.get ⟨i, hi'⟩ =
      (fun t => if t.id = (if winner.id = t2.id then t1.id else t2.id) then creditLoss t
        else t)
        ((fun t => if t.id = winner.id then creditWin t else t)
          (db.trainers.get ⟨i, hi⟩)) := by
    simp only [List.get_eq_getElem, htr, List.getElem_map]
  rw [hval]
  dsimp only
  constructor
  · exact ⟨(condLoss_fields _ _).1.trans (condWin_fields _ _).1,
      (condLoss_fields _ _).2.1.trans (condWin_fields _ _).2.1,
      (condLoss_fields _ _).2.2.1.trans (condWin_fields _ _).2.2.1,
      (condLoss_fields _ _).2.2.2.1.trans (condWin_fields _ _).2.2.2.1,
      (condLoss_fields _ _).2.2.2.2.trans (condWin_fields _ _).2.2.2.2⟩
  · intro hout
    have hwno : (db.trainers.get ⟨i, hi⟩).id ≠ winner.id := by
      rcases hwid with hwid | hwid <;> rw [hwid]
      · rw [e1]; exact hout.1
      · rw [e2]; exact hout.2
    have hlno : (db.trainers.get ⟨i, hi⟩).id ≠
        (if winner.id = t2.id then t1.id else t2.id) := by
      by_cases hc : winner.id = t2.id
      · rw [if_pos hc, e1]; exact hout.1
      · rw [if_neg hc, e2]; exact hout.2
    rw [if_neg hwno, if_neg hlno]

/-- Witness for claim C9 at the two-trainer fixture. -/
theorem apply_battle_result_frame_witness :
    (_apply_battle_result demoStore demoBattle).1.battles = demoStore.battles ∧
      (_apply_battle_result demoStore demoBattle).1.trainers.length =
        demoStore.trainers.length ∧
      ∀ i (hi : i < demoStore.trainers.length)
        (hi' : i < (_apply_battle_result demoStore demoBattle).1.trainers.length),
        ((((_apply_battle_result demoStore demoBattle).1.trainers.get ⟨i, hi'⟩).id =
            (demoStore.trainers.get ⟨i, hi⟩).id ∧
          ((_apply_battle_result demoStore demoBattle).1.trainers.get ⟨i, hi'⟩).name =
            (demoStore.trainers.get ⟨i, hi⟩).name ∧
          ((_apply_battle_result demoStore demoBattle).1.trainers.get ⟨i, hi'⟩).grade =
            (demoStore.trainers.get ⟨i, hi⟩).grade ∧
          ((_apply_battle_result demoStore demoBattle).1.trainers.get ⟨i, hi'⟩).nickname =
            (demoStore.trainers.get ⟨i, hi⟩).nickname ∧
          ((_apply_battle_result demoStore demoBattle).1.trainers.get ⟨i, hi'⟩).showdown_name =
            (demoStore.trainers.get ⟨i, hi⟩).showdown_name) ∧
        ((demoStore.trainers.get ⟨i, hi⟩).id ≠ demoBattle.trainer1_id ∧
            (demoStore.trainers.get ⟨i, hi⟩).id ≠ demoBattle.trainer2_id →
          (_apply_battle_result demoStore demoBattle).1.trainers.get ⟨i, hi'⟩ =
            demoStore.trainers.get ⟨i, hi⟩)) :=
  apply_battle_result_frame demoStore demoBattle
    (_apply_battle_result demoStore demoBattle).1 (by decide)

theorem apply_error_unchanged {db : Store} {b : Battle} {db2 : Store}
    {e : HTTPException} (h : _apply_battle_result db b = (db2, some e)) :
    db2 = db := by
  unfold _apply_battle_result at h
  rcases h1 : findTrainer db b.trainer1_id with _ | t1 <;> rw [h1] at h
  · exact ((Prod.mk.injEq ..).mp h).1.symm
  rcases h2 : findTrainer db b.trainer2_id with _ | t2 <;> rw [h2] at h
  · exact ((Prod.mk.injEq ..).mp h).1.symm
  rcases h3 : findTrainer db b.winner_id with _ | winner <;> rw [h3] at h
  · exact ((Prod.mk.injEq ..).mp h).1.symm
  dsimp only at h
  by_cases hg : winner.id ≠ t1.id ∧ winner.id ≠ t2.id
  · rw [if_pos hg] at h
    exact ((Prod.mk.injEq ..).mp h).1.symm
  · rw [if_neg hg] at h
    simp at h

theorem create_battle_eq_of_valid (db : Store) (req : BattleCreate)
    (hself : ¬ req.trainer1_id = req.trainer2_id)
    (hw : ¬(req.winner_id ≠ req.trainer1_id ∧ req.winner_id ≠ req.trainer2_id)) :
    create_battle db req =
      (match _apply_battle_result
          { db with
              battles := db.battles ++ [⟨db.next_battle_id, req.trainer1_id,
                req.trainer2_id, req.winner_id, req.format, req.replay_url, db.now⟩],
              next_battle_id := db.next_battle_id + 1 }
          ⟨db.next_battle_id, req.trainer1_id, req.trainer2_id, req.winner_id,
            req.format, req.replay_url, db.now⟩ with
        | (db2, none) => (db2, Except.ok (⟨db.next_battle_id, req.trainer1_id,
            req.trainer2_id, req.winner_id, req.format, req.replay_url, db.now⟩ : Battle))
        | (db2, some e) => (db2, Except.error e)) := by
  unfold create_battle
  rw [if_neg hself, if_neg hw]

theorem create_battle_self_eq (db : Store) (req : BattleCreate)
    (h : req.trainer1_id = req.trainer2_id) :
    create_battle db req =
      (db, .error ⟨400, "A trainer cannot battle themselves."⟩) := by
  unfold create_battle
  rw [if_pos h]

theorem create_battle_badwinner_eq (db : Store) (req : BattleCreate)
    (hne : req.trainer1_id ≠ req.trainer2_id)
    (hw1 : req.winner_id ≠ req.trainer1_id)
    (hw2 : req.winner_id ≠ req.trainer2_id) :
    create_battle db req =
      (db, .error ⟨400, "Winner must be one of the two trainers."⟩) := by
  unfold create_battle
  rw [if_neg hne, if_pos ⟨hw1, hw2⟩]

/-- Claim C7: create_battle rejects a self-battle and a winner that is
neither participant with a 400 before writing anything (the store is
returned unchanged), and every battle record it successfully returns has
two distinct participants with the winner among them and is exactly the
one appended to the battles table. -/
theorem create_battle_validates (db : Store) (req : BattleCreate) :
    (req.trainer1_id = req.trainer2_id →
      create_battle db req =
        (db, .error ⟨400, "A trainer cannot battle themselves."⟩)) ∧
    (req.trainer1_id ≠ req.trainer2_id →
      req.winner_id ≠ req.trainer1_id → req.winner_id ≠ req.trainer2_id →
      create_battle db req =
        (db, .error ⟨400, "Winner must be one of the two trainers."⟩)) ∧
    (∀ db' bat, create_battle db req = (db', .ok bat) →
      bat.trainer1_id ≠ bat.trainer2_id ∧
      (bat.winner_id = bat.trainer1_id ∨ bat.winner_id = bat.trainer2_id) ∧
      db'.battles = db.battles ++ [bat]) := by
  refine ⟨fun h => create_battle_self_eq db req h,
    fun hne hw1 hw2 => create_battle_badwinner_eq db req hne hw1 hw2, ?_⟩
  intro db' bat hok
  by_cases hself : req.trainer1_id = req.trainer2_id
  · rw [create_battle_self_eq db req hself] at hok
    simp at hok
  by_cases hwbad : req.winner_id ≠ req.trainer1_id ∧ req.winner_id ≠ req.trainer2_id
  · rw [create_battle_badwinner_eq db req hself hwbad.1 hwbad.2] at hok
    simp at hok
  rw [create_battle_eq_of_valid db req hself hwbad] at hok
  push_neg at hwbad
  rcases happ : _apply_battle_result
      { db with
          battles := db.battles ++ [⟨db.next_battle_id, req.trainer1_id,
            req.trainer2_id, req.winner_id, req.format, req.replay_url, db.now⟩],
          next_battle_id := db.next_battle_id + 1 }
      ⟨db.next_battle_id, req.trainer1_id, req.trainer2_id, req.winner_id,
        req.format, req.replay_url, db.now⟩ with ⟨db2, oe⟩
  rw [happ] at hok
  cases oe with
  | none =>
    dsimp only at hok
    injection hok with hdb hbat
    injection hbat with hbat
    subst hdb
    subst hbat
    refine ⟨hself, ?_, ?_⟩
    · by_cases hc : req.winner_id = req.trainer1_id
      · exact Or.inl hc
      · exact Or.inr (hwbad hc)
    · obtain ⟨_, _, _, -, -, -, -, hb, -, -, -, -⟩ := apply_success_shape happ
      exact hb
  | some e =>
    dsimp only at hok
    simp at hok

/-- Witness for claim C7: a self-battle request is rejected with the
store unchanged, and a valid request returns a record satisfying the
invariant. -/
theorem create_battle_validates_witness :
    create_battle demoStore ⟨1, 1, 1, none, none⟩ =
      (demoStore, .error ⟨400, "A trainer cannot battle themselves."⟩) ∧
    ((⟨1, 1, 2, 1, none, none, 0⟩ : Battle).trainer1_id ≠
        (⟨1, 1, 2, 1, none, none, 0⟩ : Battle).trainer2_id ∧
      ((⟨1, 1, 2, 1, none, none, 0⟩ : Battle).winner_id =
          (⟨1, 1, 2, 1, none, none, 0⟩ : Battle).trainer1_id ∨
        (⟨1, 1, 2, 1, none, none, 0⟩ : Battle).winner_id =
          (⟨1, 1, 2, 1, none, none, 0⟩ : Battle).trainer2_id) ∧
      (create_battle demoStore ⟨1, 2, 1, none, none⟩).1.battles =
        demoStore.battles ++ [⟨1, 1, 2, 1, none, none, 0⟩]) :=
  ⟨(create_battle_validates demoStore ⟨1, 1, 1, none, none⟩).1 rfl,
    (create_battle_validates demoStore ⟨1, 2, 1, none, none⟩).2.2
      (create_battle demoStore ⟨1, 2, 1, none, none⟩).1
      ⟨1, 1, 2, 1, none, none, 0⟩ (by decide)⟩

/-- Counterexample to claim C6 as stated: on an empty store, creating a
battle between two absent trainers passes validation, commits the battle
row, and then fails result application, yet the battle row stays
persisted, so a failed result application does leave partial state. -/
theorem create_battle_partial_state_cex :
    (create_battle ⟨[], [], 1, 1, 0⟩ ⟨1, 2, 1, none, none⟩).2 =
      .error ⟨400, "Invalid trainer ID(s) in battle result."⟩ ∧
    (create_battle ⟨[], [], 1, 1, 0⟩ ⟨1, 2, 1, none, none⟩).1.battles =
      [⟨1, 1, 2, 1, none, none, 0⟩] ∧
    (⟨[], [], 1, 1, 0⟩ : Store).battles = [] := by
  decide

/-- Claim C6 as amended: when create_battle returns an error, the trainer
records (hence all wins, losses and rank points) are unchanged, but the
battles table is either unchanged (validation failure) or extended by the
battle row that was committed before the result application failed; the
operation is all-or-nothing only for trainer statistics. -/
theorem create_battle_error_state (db : Store) (req : BattleCreate)
    (e : HTTPException) (h : (create_battle db req).2 = .error e) :
    (create_battle db req).1.trainers = db.trainers ∧
    ((create_battle db req).1.battles = db.battles ∨
      (create_battle db req).1.battles = db.battles ++
        [⟨db.next_battle_id, req.trainer1_id, req.trainer2_id, req.winner_id,
          req.format, req.replay_url, db.now⟩]) := by
  by_cases hself : req.trainer1_id = req.trainer2_id
  · rw [create_battle_self_eq db req hself]
    exact ⟨rfl, Or.inl rfl⟩
  by_cases hwbad : req.winner_id ≠ req.trainer1_id ∧ req.winner_id ≠ req.trainer2_id
  · rw [create_battle_badwinner_eq db req hself hwbad.1 hwbad.2]
    exact ⟨rfl, Or.inl rfl⟩
  have heq := create_battle_eq_of_valid db req hself hwbad
  rcases happ : _apply_battle_result
      { db with
          battles := db.battles ++ [⟨db.next_battle_id, req.trainer1_id,
            req.trainer2_id, req.winner_id, req.format, req.replay_url, db.now⟩],
          next_battle_id := db.next_battle_id + 1 }
      ⟨db.next_battle_id, req.trainer1_id, req.trainer2_id, req.winner_id,
        req.format, req.replay_url, db.now⟩ with ⟨db2, oe⟩
  rw [happ] at heq
  cases oe with
  | none =>
    rw [heq] at h
    simp at h
  | some e2 =>
    rw [heq]
    have := apply_error_unchanged happ
    subst this
    exact ⟨rfl, Or.inr rfl⟩

/-- Witness for the amended claim C6 at the failing input of the
counterexample: the error left the trainers unchanged while the battle
row stayed persisted. -/
theorem create_battle_error_state_witness :
    (create_battle ⟨[], [], 1, 1, 0⟩ ⟨1, 2, 1, none, none⟩).1.trainers =
      (⟨[], [], 1, 1, 0⟩ : Store).trainers ∧
    ((create_battle ⟨[], [], 1, 1, 0⟩ ⟨1, 2, 1, none, none⟩).1.battles =
        (⟨[], [], 1, 1, 0⟩ : Store).battles ∨
      (create_battle ⟨[], [], 1, 1, 0⟩ ⟨1, 2, 1, none, none⟩).1.battles =
        (⟨[], [], 1, 1, 0⟩ : Store).battles ++
          [⟨(⟨[], [], 1, 1, 0⟩ : Store).next_battle_id, 1, 2, 1, none, none,
            (⟨[], [], 1, 1, 0⟩ : Store).now⟩]) :=
  create_battle_error_state ⟨[], [], 1, 1, 0⟩ ⟨1, 2, 1, none, none⟩
    ⟨400, "Invalid trainer ID(s) in battle result."⟩ (by decide)

/-- Two trainers with equal points and wins whose names differ only in
letter case order. -/
def lbAlice : Trainer := ⟨1, "alice", none, none, none, 0, 0, 5⟩

def lbBob : Trainer := ⟨2, "Bob", none, none, none, 0, 0, 5⟩

def lbStore : Store := ⟨[lbAlice, lbBob], [], 3, 1, 0⟩

/-- Counterexample to claim C3 as stated: the leaderboard query breaks the
name tie with SQLite BINARY (case-sensitive) collation, so on two
trainers tied on points and wins named alice and Bob it lists Bob first,
which is not sorted by the case-insensitive composite-key order that the
pairing sort uses. -/
theorem leaderboard_not_case_insensitive_cex :
    leaderboard lbStore 50 = [lbBob, lbAlice] ∧
    ¬ List.Sorted pairingLe (leaderboard lbStore 50) ∧
    List.insertionSort pairingLe [lbAlice, lbBob] = [lbAlice, lbBob] := by
  decide

/-- Claim C3 as amended: both rankings are total orders on the composite
key (points descending, wins descending, name ascending) and are
deterministic on unchanged data, but only the pairing sort compares names
case-insensitively; the leaderboard compares names case-sensitively
(binary collation). -/
theorem ranking_total_orders (db : Store) (limit : Nat) (l : List Trainer) :
    (∀ a b : Trainer, pairingLe a b ∨ pairingLe b a) ∧
    (∀ a b c : Trainer, pairingLe a b → pairingLe b c → pairingLe a c) ∧
    (∀ a b : Trainer, leaderboardLe a b ∨ leaderboardLe b a) ∧
    (∀ a b c : Trainer, leaderboardLe a b → leaderboardLe b c → leaderboardLe a c) ∧
    List.Sorted leaderboardLe (leaderboard db limit) ∧
    List.Sorted pairingLe (List.insertionSort pairingLe l) ∧
    (∀ db2 : Store, db2.trainers = db.trainers →
      leaderboard db2 limit = leaderboard db limit) := by
  refine ⟨fun a b => keyLe_total pairingKey a b,
    fun a b c => keyLe_trans pairingKey a b c,
    fun a b => keyLe_total leaderboardKey a b,
    fun a b c => keyLe_trans leaderboardKey a b c, ?_, ?_, ?_⟩
  · exact List.Pairwise.sublist (List.take_sublist _ _)
      (List.sorted_insertionSort leaderboardLe db.trainers)
  · exact List.sorted_insertionSort pairingLe l
  · intro db2 h
    unfold leaderboard
    rw [h]

/-- Witness for the amended claim C3: totality of the pairing order at
two concrete trainers. -/
theorem ranking_total_orders_witness :
    pairingLe lbAlice lbBob ∨ pairingLe lbBob lbAlice :=
  (ranking_total_orders lbStore 50 []).1 lbAlice lbBob

/-- The trainer ids occupying one pairing: one for a bye, two otherwise. -/
def pairingSlots (p : Pairing) : List Nat :=
  p.trainer1_id :: p.trainer2_id.toList

theorem buildPairings_slots : ∀ l : List Trainer,
    (buildPairings l).flatMap pairingSlots = l.map (fun t => t.id)
  | [] => rfl
  | [t] => rfl
  | t1 :: t2 :: rest => by
    simp only [buildPairings, List.flatMap_cons, List.map_cons,
      buildPairings_slots rest, pairingSlots, Option.toList_some]
    rfl

theorem buildPairings_length : ∀ l : List Trainer,
    (buildPairings l).length = (l.length + 1) / 2
  | [] => rfl
  | [t] => by simp [buildPairings]
  | t1 :: t2 :: rest => by
    simp only [buildPairings, List.length_cons, buildPairings_length rest]
    omega

theorem buildPairings_byes : ∀ l : List Trainer,
    (buildPairings l).countP (fun p => p.trainer2_id.isNone) = l.length % 2
  | [] => rfl
  | [t] => rfl
  | t1 :: t2 :: rest => by
    simp only [buildPairings, List.countP_cons, List.length_cons,
      buildPairings_byes rest]
    simp
    omega

theorem buildPairings_ne_nil : ∀ l : List Trainer, l ≠ [] → buildPairings l ≠ []
  | [], h => absurd rfl h
  | [t], _ => by simp [buildPairings]
  | t1 :: t2 :: rest, _ => by simp [buildPairings]

theorem getLast?_cons_of_ne_nil {α} (a : α) {l : List α} (h : l ≠ []) :
    (a :: l).getLast? = l.getLast? := by
  obtain ⟨b, bs, rfl⟩ := List.exists_cons_of_ne_nil h
  exact List.getLast?_cons_cons

theorem buildPairings_last_bye : ∀ l : List Trainer, l.length % 2 = 1 →
    ∃ t, l.getLast? = some t ∧ (buildPairings l).getLast? = some ⟨t.id, none⟩
  | [], h => by simp at h
  | [t], _ => ⟨t, rfl, rfl⟩
  | t1 :: t2 :: rest, h => by
    have hr : rest.length % 2 = 1 := by
      simp only [List.length_cons] at h
      omega
    have hrne : rest ≠ [] := by
      intro he
      rw [he] at hr
      simp at hr
    obtain ⟨t, hl, hb⟩ := buildPairings_last_bye rest hr
    refine ⟨t, ?_, ?_⟩
    · rw [List.getLast?_cons_cons, getLast?_cons_of_ne_nil t2 hrne]
      exact hl
    · show (Pairing.mk t1.id (some t2.id) :: buildPairings rest).getLast? = _
      rw [getLast?_cons_of_ne_nil _ (buildPairings_ne_nil rest hrne)]
      exact hb

theorem sorted_all_rel_last {α} {r : α → α → Prop} (hrefl : ∀ a, r a a) :
    ∀ l : List α, List.Sorted r l → ∀ t, l.getLast? = some t → ∀ u ∈ l, r u t
  | [], _, t, hl, u, hu => by simp at hu
  | [a], _, t, hl, u, hu => by
    have ha : u = a := by simpa using hu
    have ht : t = a := by simpa using hl.symm
    rw [ha, ht]
    exact hrefl a
  | a :: b :: bs, hs, t, hl, u, hu => by
    rw [List.getLast?_cons_cons] at hl
    rcases List.mem_cons.mp hu with rfl | hu2
    · have hmem : t ∈ b :: bs := by
        have h1 : t ∈ (b :: bs).getLast? := by rw [hl]; rfl
        obtain ⟨hne, heq⟩ := List.mem_getLast?_eq_getLast h1
        rw [heq]
        exact List.getLast_mem hne
      exact (List.pairwise_cons.mp hs).1 t hmem
    · exact sorted_all_rel_last hrefl (b :: bs) hs.of_cons t hl u hu2

theorem contains_true_iff {α} [BEq α] [LawfulBEq α] (l : List α) (a : α) :
    l.contains a = true ↔ a ∈ l := by
  simp

theorem contains_false_iff {α} [BEq α] [LawfulBEq α] (l : List α) (a : α) :
    l.contains a = false ↔ a ∉ l := by
  constructor
  · intro h hmem
    have := (contains_true_iff l a).mpr hmem
    rw [h] at this
    cases this
  · intro h
    cases hc : l.contains a
    · rfl
    · exact absurd ((contains_true_iff l a).mp hc) h

theorem missingIds_spec (db : Store) (ids : List Nat) (tid : Nat) :
    tid ∈ missingIds db ids ↔ (tid ∈ ids ∧ ¬∃ t ∈ db.trainers, t.id = tid) := by
  unfold missingIds resolvedTrainers
  rw [List.mem_filter]
  constructor
  · rintro ⟨hin, hno⟩
    have hno2 : ((db.trainers.filter (fun t => ids.contains t.id)).map
        (fun t => t.id)).contains tid = false := by
      simpa using hno
    have hnomem := (contains_false_iff _ _).mp hno2
    refine ⟨hin, ?_⟩
    rintro ⟨t, ht, hid⟩
    refine hnomem (List.mem_map.mpr ⟨t, List.mem_filter.mpr ⟨ht, ?_⟩, hid⟩)
    exact (contains_true_iff _ _).mpr (by rw [hid]; exact hin)
  · rintro ⟨hin, hno⟩
    refine ⟨hin, ?_⟩
    have hcon : ((db.trainers.filter (fun t => ids.contains t.id)).map
        (fun t => t.id)).contains tid = false := by
      apply (contains_false_iff _ _).mpr
      intro hmem
      obtain ⟨t, htf, hid⟩ := List.mem_map.mp hmem
      exact hno ⟨t, (List.mem_filter.mp htf).1, hid⟩
    simpa using hcon

theorem missingIds_eq_nil (db : Store) (ids : List Nat) :
    missingIds db ids = [] ↔ ∀ tid ∈ ids, ∃ t ∈ db.trainers, t.id = tid := by
  rw [List.eq_nil_iff_forall_not_mem]
  constructor
  · intro h tid hin
    by_contra hno
    exact h tid ((missingIds_spec db ids tid).mpr ⟨hin, hno⟩)
  · intro h tid hmem
    obtain ⟨hin, hno⟩ := (missingIds_spec db ids tid).mp hmem
    exact hno (h tid hin)

theorem create_pairings_ok_eq (db : Store) (ids : List Nat)
    (hne : ¬ ids.length = 0) (hmiss : missingIds db ids = []) :
    create_pairings db ids =
      .ok (buildPairings
        (List.insertionSort pairingLe (resolvedTrainers db ids))) := by
  unfold create_pairings
  rw [if_neg hne, if_neg (by simp [hmiss])]

theorem create_pairings_ok_inv {db : Store} {ids : List Nat} {ps : List Pairing}
    (h : create_pairings db ids = .ok ps) :
    ¬ ids.length = 0 ∧ missingIds db ids = [] ∧
      ps = buildPairings
        (List.insertionSort pairingLe (resolvedTrainers db ids)) := by
  unfold create_pairings at h
  by_cases h1 : ids.length = 0
  · rw [if_pos h1] at h
    simp at h
  rw [if_neg h1] at h
  by_cases h2 : missingIds db ids ≠ []
  · rw [if_pos h2] at h
    simp at h
  rw [if_neg h2] at h
  push_neg at h2
  injection h with h
  exact ⟨h1, h2, h.symm⟩

/-- The four-trainer fixture of the spec example: points A 10, B 8, C 8,
D 5, equal wins, names in alphabetical order; stored unsorted. -/
def trA : Trainer := ⟨1, "A", none, none, none, 0, 0, 10⟩

def trB : Trainer := ⟨2, "B", none, none, none, 0, 0, 8⟩

def trC : Trainer := ⟨3, "C", none, none, none, 0, 0, 8⟩

def trD : Trainer := ⟨4, "D", none, none, none, 0, 0, 5⟩

def exampleStore : Store := ⟨[trD, trB, trA, trC], [], 5, 1, 0⟩

theorem pairingLe_refl (a : Trainer) : pairingLe a a := by
  unfold pairingLe
  simp [sortKeyLt, charsLt_irrefl]

/-- Claim C5: pairing on an empty id list fails with the 400 invalid
input error; pairing with unresolved ids fails with the 404 error whose
detail names exactly the requested ids with no record; pairing succeeds
whenever the list is non-empty and every id resolves. -/
theorem create_pairings_errors (db : Store) (ids : List Nat) :
    (ids = [] →
      create_pairings db ids = .error ⟨400, "No trainer IDs provided."⟩) ∧
    (missingIds db ids ≠ [] →
      create_pairings db ids = .error ⟨404,
        "Some trainer IDs were not found: " ++ toString (missingIds db ids)⟩) ∧
    (∀ tid, tid ∈ missingIds db ids ↔
      tid ∈ ids ∧ ¬∃ t ∈ db.trainers, t.id = tid) ∧
    (ids ≠ [] → (∀ tid ∈ ids, ∃ t ∈ db.trainers, t.id = tid) →
      ∃ ps, create_pairings db ids = .ok ps) := by
  refine ⟨?_, ?_, missingIds_spec db ids, ?_⟩
  · intro h
    subst h
    rfl
  · intro hmiss
    have hne : ¬ ids.length = 0 := by
      intro h0
      rw [List.length_eq_zero] at h0
      subst h0
      exact hmiss rfl
    unfold create_pairings
    rw [if_neg hne, if_pos hmiss]
  · intro hne hall
    have hlen : ¬ ids.length = 0 := fun h0 => hne (List.length_eq_zero.mp h0)
    exact ⟨_, create_pairings_ok_eq db ids hlen ((missingIds_eq_nil db ids).mpr hall)⟩

/-- Witness for claim C5: the three outcomes at the four-trainer fixture. -/
theorem create_pairings_errors_witness :
    create_pairings exampleStore [] =
      .error ⟨400, "No trainer IDs provided."⟩ ∧
    create_pairings exampleStore [1, 7, 9] = .error ⟨404,
      "Some trainer IDs were not found: " ++
        toString (missingIds exampleStore [1, 7, 9])⟩ ∧
    (∃ ps, create_pairings exampleStore [1, 2, 3, 4] = .ok ps) :=
  ⟨(create_pairings_errors exampleStore []).1 rfl,
    (create_pairings_errors exampleStore [1, 7, 9]).2.1 (by decide),
    (create_pairings_errors exampleStore [1, 2, 3, 4]).2.2.2 (by decide) (by decide)⟩

/-- Claim C4: on a non-empty list of resolving ids, create_pairings sorts
the resolved trainers in the pairing ranking order and pairs consecutive
entries; with an odd count exactly one bye goes to the last trainer of
the sorted order, which every participant ranks at or above; on the spec
fixture (points A 10, B 8, C 8, D 5) the result is (A,B),(C,D). -/
theorem create_pairings_ranked (db : Store) (ids : List Nat)
    (hne : ids ≠ [])
    (hall : ∀ tid ∈ ids, ∃ t ∈ db.trainers, t.id = tid) :
    ∃ sorted, create_pairings db ids = .ok (buildPairings sorted) ∧
      List.Sorted pairingLe sorted ∧
      sorted.Perm (resolvedTrainers db ids) ∧
      (sorted.length % 2 = 1 →
        ∃ t, sorted.getLast? = some t ∧ (∀ u ∈ sorted, pairingLe u t) ∧
          (buildPairings sorted).getLast? = some ⟨t.id, none⟩) ∧
      (buildPairings sorted).countP (fun p => p.trainer2_id.isNone) =
        sorted.length % 2 ∧
      create_pairings exampleStore [1, 2, 3, 4] =
        .ok [⟨1, some 2⟩, ⟨3, some 4⟩] := by
  have hlen : ¬ ids.length = 0 := fun h0 => hne (List.length_eq_zero.mp h0)
  have hmiss := (missingIds_eq_nil db ids).mpr hall
  refine ⟨List.insertionSort pairingLe (resolvedTrainers db ids),
    create_pairings_ok_eq db ids hlen hmiss,
    List.sorted_insertionSort pairingLe _,
    List.perm_insertionSort pairingLe _, ?_, buildPairings_byes _, by decide⟩
  intro hodd
  obtain ⟨t, hlast, hbye⟩ := buildPairings_last_bye _ hodd
  exact ⟨t, hlast,
    sorted_all_rel_last pairingLe_refl _
      (List.sorted_insertionSort pairingLe _) t hlast, hbye⟩

/-- Witness for claim C4 on a three-trainer odd-sized request. -/
theorem create_pairings_ranked_witness :
    ∃ sorted, create_pairings exampleStore [4, 2, 3] = .ok (buildPairings sorted) ∧
      List.Sorted pairingLe sorted ∧
      sorted.Perm (resolvedTrainers exampleStore [4, 2, 3]) ∧
      (sorted.length % 2 = 1 →
        ∃ t, sorted.getLast? = some t ∧ (∀ u ∈ sorted, pairingLe u t) ∧
          (buildPairings sorted).getLast? = some ⟨t.id, none⟩) ∧
      (buildPairings sorted).countP (fun p => p.trainer2_id.isNone) =
        sorted.length % 2 ∧
      create_pairings exampleStore [1, 2, 3, 4] =
        .ok [⟨1, some 2⟩, ⟨3, some 4⟩] :=
  create_pairings_ranked exampleStore [4, 2, 3] (by decide) (by decide)

/-- Claim C10: duplicate ids in a successful pairing request are silently
deduplicated (the deduplicated request gives the same response), each
distinct resolved trainer fills exactly one slot (the slots are a
permutation of the distinct resolved ids, without repetition), the number
of pairings is the rounded-up half of the number d of distinct requested
ids, and at most one pairing is a bye, exactly one iff d is odd. -/
theorem create_pairings_dedup (db : Store) (ids : List Nat) (ps : List Pairing)
    (hnodup : (db.trainers.map (fun t => t.id)).Nodup)
    (hok : create_pairings db ids = .ok ps) :
    create_pairings db ids.dedup = .ok ps ∧
    (ps.flatMap pairingSlots).Perm ((resolvedTrainers db ids).map (fun t => t.id)) ∧
    (ps.flatMap pairingSlots).Nodup ∧
    ps.length = ((resolvedTrainers db ids).length + 1) / 2 ∧
    (resolvedTrainers db ids).length = ids.dedup.length ∧
    ps.countP (fun p => p.trainer2_id.isNone) ≤ 1 ∧
    (ps.countP (fun p => p.trainer2_id.isNone) = 1 ↔ ids.dedup.length % 2 = 1) := by
  obtain ⟨hlen, hmiss, hps⟩ := create_pairings_ok_inv hok
  have hres : resolvedTrainers db ids.dedup = resolvedTrainers db ids := by
    unfold resolvedTrainers
    apply List.filter_congr
    intro t _
    by_cases h : t.id ∈ ids <;> simp [h]
  have hmiss2 : missingIds db ids.dedup = [] := by
    rw [missingIds_eq_nil]
    intro tid hin
    exact (missingIds_eq_nil db ids).mp hmiss tid (List.mem_dedup.mp hin)
  have hlen2 : ¬ ids.dedup.length = 0 := by
    intro h0
    have hd : ids.dedup = [] := List.length_eq_zero.mp h0
    have hnil : ids = [] := by simpa using hd
    exact hlen (by simp [hnil])
  have hok2 : create_pairings db ids.dedup = .ok ps := by
    rw [create_pairings_ok_eq db ids.dedup hlen2 hmiss2, hres, ← hps]
  have hperm : (List.insertionSort pairingLe (resolvedTrainers db ids)).Perm
      (resolvedTrainers db ids) := List.perm_insertionSort _ _
  have hslots : ps.flatMap pairingSlots =
      (List.insertionSort pairingLe (resolvedTrainers db ids)).map
        (fun t => t.id) := by
    rw [hps]
    exact buildPairings_slots _
  have hpermslots : (ps.flatMap pairingSlots).Perm
      ((resolvedTrainers db ids).map (fun t => t.id)) := by
    rw [hslots]
    exact hperm.map _
  have hresnodup : ((resolvedTrainers db ids).map (fun t => t.id)).Nodup := by
    apply List.Nodup.sublist _ hnodup
    exact List.Sublist.map _ (List.filter_sublist _)
  have hnodups : (ps.flatMap pairingSlots).Nodup :=
    hpermslots.nodup_iff.mpr hresnodup
  have hlen3 : ps.length = ((resolvedTrainers db ids).length + 1) / 2 := by
    rw [hps, buildPairings_length, hperm.length_eq]
  have hdd : (resolvedTrainers db ids).length = ids.dedup.length := by
    have h1 : ((resolvedTrainers db ids).map (fun t => t.id)).Perm ids.dedup := by
      rw [List.perm_ext_iff_of_nodup hresnodup (List.nodup_dedup ids)]
      intro a
      constructor
      · intro ha
        obtain ⟨t, htf, hid⟩ := List.mem_map.mp ha
        have hc := (List.mem_filter.mp htf).2
        rw [List.mem_dedup, ← hid]
        exact (contains_true_iff _ _).mp hc
      · intro ha
        have ha2 : a ∈ ids := List.mem_dedup.mp ha
        obtain ⟨t, ht, hid⟩ := (missingIds_eq_nil db ids).mp hmiss a ha2
        refine List.mem_map.mpr ⟨t, List.mem_filter.mpr ⟨ht, ?_⟩, hid⟩
        exact (contains_true_iff _ _).mpr (by rw [hid]; exact ha2)
    have h2 := h1.length_eq
    simpa using h2
  have hbyes : ps.countP (fun p => p.trainer2_id.isNone) =
      (resolvedTrainers db ids).length % 2 := by
    rw [hps, buildPairings_byes, hperm.length_eq]
  refine ⟨hok2, hpermslots, hnodups, hlen3, hdd, ?_, ?_⟩
  · rw [hbyes]
    omega
  · rw [hbyes, hdd]

/-- Witness for claim C10: a request repeating id 2 pairs the four
distinct trainers once each. -/
theorem create_pairings_dedup_witness :
    create_pairings exampleStore ([1, 2, 2, 3, 4].dedup) =
      .ok [⟨1, some 2⟩, ⟨3, some 4⟩] ∧
    (([⟨1, some 2⟩, ⟨3, some 4⟩] : List Pairing).flatMap pairingSlots).Perm
      ((resolvedTrainers exampleStore [1, 2, 2, 3, 4]).map (fun t => t.id)) ∧
    (([⟨1, some 2⟩, ⟨3, some 4⟩] : List Pairing).flatMap pairingSlots).Nodup ∧
    ([⟨1, some 2⟩, ⟨3, some 4⟩] : List Pairing).length =
      ((resolvedTrainers exampleStore [1, 2, 2, 3, 4]).length + 1) / 2 ∧
    (resolvedTrainers exampleStore [1, 2, 2, 3, 4]).length =
      [1, 2, 2, 3, 4].dedup.length ∧
    ([⟨1, some 2⟩, ⟨3, some 4⟩] : List Pairing).countP
      (fun p => p.trainer2_id.isNone) ≤ 1 ∧
    (([⟨1, some 2⟩, ⟨3, some 4⟩] : List Pairing).countP
        (fun p => p.trainer2_id.isNone) = 1 ↔
      [1, 2, 2, 3, 4].dedup.length % 2 = 1) :=
  create_pairings_dedup exampleStore [1, 2, 2, 3, 4]
    [⟨1, some 2⟩, ⟨3, some 4⟩] (by decide) (by decide)

/-- Pointwise comparison of the three cumulative statistics. -/
def statsLe (a b : Trainer) : Prop :=
  a.wins ≤ b.wins ∧ a.losses ≤ b.losses ∧ a.rank_points ≤ b.rank_points

theorem statsLe_refl (a : Trainer) : statsLe a a :=
  ⟨le_refl _, le_refl _, le_refl _⟩

theorem statsLe_trans {a b c : Trainer} (h1 : statsLe a b) (h2 : statsLe b c) :
    statsLe a c :=
  ⟨h1.1.trans h2.1, h1.2.1.trans h2.2.1, h1.2.2.trans h2.2.2⟩

theorem statsLe_condWin (w : Nat) (t : Trainer) :
    statsLe t (if t.id = w then creditWin t else t) := by
  by_cases h : t.id = w <;> simp [h, creditWin, statsLe]

theorem statsLe_condLoss (ld : Nat) (t : Trainer) :
    statsLe t (if t.id = ld then creditLoss t else t) := by
  by_cases h : t.id = ld <;> simp [h, creditLoss, statsLe]

theorem statsLe_condUpdate (tid : Nat) (u : TrainerUpdate) (t : Trainer) :
    statsLe t (if t.id = tid then applyTrainerUpdate u t else t) := by
  by_cases h : t.id = tid <;> simp [h, applyTrainerUpdate, statsLe]

theorem apply_find_mono (db : Store) (b : Battle) {tid : Nat} {t : Trainer}
    (h : findTrainer db tid = some t) :
    ∃ t', findTrainer (_apply_battle_result db b).1 tid = some t' ∧
      statsLe t t' := by
  unfold _apply_battle_result
  rcases h1 : findTrainer db b.trainer1_id with _ | t1
  · exact ⟨t, h, statsLe_refl t⟩
  rcases h2 : findTrainer db b.trainer2_id with _ | t2
  · exact ⟨t, h, statsLe_refl t⟩
  rcases h3 : findTrainer db b.winner_id with _ | winner
  · exact ⟨t, h, statsLe_refl t⟩
  dsimp only
  by_cases hg : winner.id ≠ t1.id ∧ winner.id ≠ t2.id
  · rw [if_pos hg]
    exact ⟨t, h, statsLe_refl t⟩
  · rw [if_neg hg]
    refine ⟨(fun u => if u.id = (if winner.id = t2.id then t1.id else t2.id)
        then creditLoss u else u)
      ((fun u => if u.id = winner.id then creditWin u else u) t), ?_, ?_⟩
    · show ((db.trainers.map (fun u => if u.id = winner.id then creditWin u else u)).map
          (fun u => if u.id = (if winner.id = t2.id then t1.id else t2.id)
            then creditLoss u else u)).find? (fun u => u.id == tid) = _
      rw [find_after_credits]
      have hf : db.trainers.find? (fun u => u.id == tid) = some t := h
      rw [hf]
      rfl
    · exact statsLe_trans (statsLe_condWin winner.id t) (statsLe_condLoss _ _)

theorem apply_mem (db : Store) (b : Battle) :
    ∀ t' ∈ (_apply_battle_result db b).1.trainers,
      ∃ t ∈ db.trainers, statsLe t t' := by
  unfold _apply_battle_result
  rcases h1 : findTrainer db b.trainer1_id with _ | t1
  · exact fun t' h => ⟨t', h, statsLe_refl t'⟩
  rcases h2 : findTrainer db b.trainer2_id with _ | t2
  · exact fun t' h => ⟨t', h, statsLe_refl t'⟩
  rcases h3 : findTrainer db b.winner_id with _ | winner
  · exact fun t' h => ⟨t', h, statsLe_refl t'⟩
  dsimp only
  by_cases hg : winner.id ≠ t1.id ∧ winner.id ≠ t2.id
  · rw [if_pos hg]
    exact fun t' h => ⟨t', h, statsLe_refl t'⟩
  · rw [if_neg hg]
    intro t' ht'
    simp only [List.mem_map] at ht'
    obtain ⟨t0, ⟨t, ht, rfl⟩, rfl⟩ := ht'
    exact ⟨t, ht,
      statsLe_trans (statsLe_condWin winner.id t) (statsLe_condLoss _ _)⟩

theorem step_find_mono (db : Store) (r : Request) {tid : Nat} {t : Trainer}
    (h : findTrainer db tid = some t) :
    ∃ t', findTrainer (stepStore db r) tid = some t' ∧ statsLe t t' := by
  cases r with
  | createTrainer req =>
    refine ⟨t, ?_, statsLe_refl t⟩
    show ((db.trainers ++ [_]).find? (fun u => u.id == tid)) = some t
    rw [List.find?_append]
    have hf : db.trainers.find? (fun u => u.id == tid) = some t := h
    rw [hf]
    rfl
  | updateTrainer tid2 u =>
    dsimp only [stepStore]
    unfold update_trainer
    rcases hf : findTrainer db tid2 with _ | t0
    · exact ⟨t, h, statsLe_refl t⟩
    dsimp only
    refine ⟨if t.id = tid2 then applyTrainerUpdate u t else t, ?_, ?_⟩
    · show (db.trainers.map
          (fun v => if v.id = tid2 then applyTrainerUpdate u v else v)).find?
          (fun v => v.id == tid) = _
      rw [find_id_map]
      · have hf2 : db.trainers.find? (fun v => v.id == tid) = some t := h
        rw [hf2]
        rfl
      · intro v
        by_cases hv : v.id = tid2 <;> simp [hv, applyTrainerUpdate]
    · exact statsLe_condUpdate tid2 u t
  | createBattle req =>
    by_cases hself : req.trainer1_id = req.trainer2_id
    · refine ⟨t, ?_, statsLe_refl t⟩
      show findTrainer (create_battle db req).1 tid = some t
      rw [create_battle_self_eq db req hself]
      exact h
    by_cases hwbad : req.winner_id ≠ req.trainer1_id ∧ req.winner_id ≠ req.trainer2_id
    · refine ⟨t, ?_, statsLe_refl t⟩
      show findTrainer (create_battle db req).1 tid = some t
      rw [create_battle_badwinner_eq db req hself hwbad.1 hwbad.2]
      exact h
    show ∃ t', findTrainer (create_battle db req).1 tid = some t' ∧ statsLe t t'
    rw [create_battle_eq_of_valid db req hself hwbad]
    rcases happ : _apply_battle_result
        { db with
            battles := db.battles ++ [⟨db.next_battle_id, req.trainer1_id,
              req.trainer2_id, req.winner_id, req.format, req.replay_url, db.now⟩],
            next_battle_id := db.next_battle_id + 1 }
        ⟨db.next_battle_id, req.trainer1_id, req.trainer2_id, req.winner_id,
          req.format, req.replay_url, db.now⟩ with ⟨db2, oe⟩
    have hfind1 : findTrainer
        { db with
            battles := db.battles ++ [⟨db.next_battle_id, req.trainer1_id,
              req.trainer2_id, req.winner_id, req.format, req.replay_url, db.now⟩],
            next_battle_id := db.next_battle_id + 1 }
        tid = some t := h
    obtain ⟨t', ht', hle⟩ := apply_find_mono _ _ hfind1
    rw [happ] at ht'
    cases oe with
    | none => exact ⟨t', ht', hle⟩
    | some e => exact ⟨t', ht', hle⟩

theorem step_mem (db : Store) (r : Request) :
    ∀ t' ∈ (stepStore db r).trainers,
      (∃ t ∈ db.trainers, statsLe t t') ∨ (t'.wins = 0 ∧ t'.losses = 0) := by
  cases r with
  | createTrainer req =>
    intro t' ht'
    have ht2 : t' ∈ db.trainers ++ [⟨db.next_trainer_id, req.name, req.grade,
        req.nickname, req.showdown_name, 0, 0, 0⟩] := ht'
    rcases List.mem_append.mp ht2 with hmem | hmem
    · exact Or.inl ⟨t', hmem, statsLe_refl t'⟩
    · have heq : t' = ⟨db.next_trainer_id, req.name, req.grade,
          req.nickname, req.showdown_name, 0, 0, 0⟩ := by simpa using hmem
      rw [heq]
      exact Or.inr ⟨rfl, rfl⟩
  | updateTrainer tid2 u =>
    intro t' ht'
    dsimp only [stepStore] at ht'
    unfold update_trainer at ht'
    rcases hf : findTrainer db tid2 with _ | t0 <;> rw [hf] at ht'
    · exact Or.inl ⟨t', ht', statsLe_refl t'⟩
    · dsimp only at ht'
      obtain ⟨t, hmem, rfl⟩ := List.mem_map.mp ht'
      exact Or.inl ⟨t, hmem, statsLe_condUpdate tid2 u t⟩
  | createBattle req =>
    intro t' ht'
    dsimp only [stepStore] at ht'
    by_cases hself : req.trainer1_id = req.trainer2_id
    · rw [create_battle_self_eq db req hself] at ht'
      exact Or.inl ⟨t', ht', statsLe_refl t'⟩
    by_cases hwbad : req.winner_id ≠ req.trainer1_id ∧ req.winner_id ≠ req.trainer2_id
    · rw [create_battle_badwinner_eq db req hself hwbad.1 hwbad.2] at ht'
      exact Or.inl ⟨t', ht', statsLe_refl t'⟩
    rw [create_battle_eq_of_valid db req hself hwbad] at ht'
    rcases happ : _apply_battle_result
        { db with
            battles := db.battles ++ [⟨db.next_battle_id, req.trainer1_id,
              req.trainer2_id, req.winner_id, req.format, req.replay_url, db.now⟩],
            next_battle_id := db.next_battle_id + 1 }
        ⟨db.next_battle_id, req.trainer1_id, req.trainer2_id, req.winner_id,
          req.format, req.replay_url, db.now⟩ with ⟨db2, oe⟩
    rw [happ] at ht'
    have hm : t' ∈ (_apply_battle_result
        { db with
            battles := db.battles ++ [⟨db.next_battle_id, req.trainer1_id,
              req.trainer2_id, req.winner_id, req.format, req.replay_url, db.now⟩],
            next_battle_id := db.next_battle_id + 1 }
        ⟨db.next_battle_id, req.trainer1_id, req.trainer2_id, req.winner_id,
          req.format, req.replay_url, db.now⟩).1.trainers := by
      rw [happ]
      cases oe with
      | none => exact ht'
      | some e => exact ht'
    obtain ⟨t, hmem, hle⟩ := apply_mem _ _ t' hm
    exact Or.inl ⟨t, hmem, hle⟩

theorem runRequests_find_mono (db : Store) (reqs : List Request) {tid : Nat}
    {t : Trainer} (h : findTrainer db tid = some t) :
    ∃ t', findTrainer (runRequests db reqs) tid = some t' ∧ statsLe t t' := by
  induction reqs generalizing db t with
  | nil => exact ⟨t, h, statsLe_refl t⟩
  | cons r rs ih =>
    obtain ⟨t1, h1, hle1⟩ := step_find_mono db r h
    obtain ⟨t2, h2, hle2⟩ := ih (stepStore db r) h1
    exact ⟨t2, h2, statsLe_trans hle1 hle2⟩

theorem runRequests_nonneg (db : Store) (reqs : List Request)
    (hInv : ∀ t ∈ db.trainers, 0 ≤ t.wins ∧ 0 ≤ t.losses) :
    ∀ t ∈ (runRequests db reqs).trainers, 0 ≤ t.wins ∧ 0 ≤ t.losses := by
  induction reqs generalizing db with
  | nil => exact hInv
  | cons r rs ih =>
    apply ih
    intro t' ht'
    rcases step_mem db r t' ht' with ⟨t0, hmem, hle⟩ | hz
    · have h0 := hInv t0 hmem
      exact ⟨h0.1.trans hle.1, h0.2.trans hle.2.1⟩
    · exact ⟨le_of_eq hz.1.symm, le_of_eq hz.2.symm⟩

theorem map_stats_cond (tid2 : Nat) (u : TrainerUpdate) : ∀ l : List Trainer,
    (l.map (fun v => if v.id = tid2 then applyTrainerUpdate u v else v)).map
        (fun t => (t.wins, t.losses, t.rank_points)) =
      l.map (fun t => (t.wins, t.losses, t.rank_points))
  | [] => rfl
  | t :: ts => by
    simp only [List.map_cons, map_stats_cond tid2 u ts]
    congr 1
    by_cases h : t.id = tid2 <;> simp [h, applyTrainerUpdate]

/-- Claim C8: starting from a store whose wins and losses are
non-negative, after any sequence of trainer creations, trainer field
updates and battle creations every trainer still has non-negative wins
and losses, and every trainer that existed before has rank points (and
wins, and losses) at least its old values; the trainer update operation
leaves the wins, losses and rank points of every row unchanged. -/
theorem trainer_stats_invariants (db : Store) (reqs : List Request)
    (hInv : ∀ t ∈ db.trainers, 0 ≤ t.wins ∧ 0 ≤ t.losses) :
    (∀ t ∈ (runRequests db reqs).trainers, 0 ≤ t.wins ∧ 0 ≤ t.losses) ∧
    (∀ tid t, findTrainer db tid = some t →
      ∃ t', findTrainer (runRequests db reqs) tid = some t' ∧
        t.rank_points ≤ t'.rank_points ∧ t.wins ≤ t'.wins ∧
          t.losses ≤ t'.losses) ∧
    (∀ trainer_id u,
      (update_trainer db trainer_id u).1.trainers.map
          (fun t => (t.wins, t.losses, t.rank_points)) =
        db.trainers.map (fun t => (t.wins, t.losses, t.rank_points))) := by
  refine ⟨runRequests_nonneg db reqs hInv, ?_, ?_⟩
  · intro tid t h
    obtain ⟨t', h', hle⟩ := runRequests_find_mono db reqs h
    exact ⟨t', h', hle.2.2, hle.1, hle.2.1⟩
  · intro tid2 u
    unfold update_trainer
    rcases hf : findTrainer db tid2 with _ | t0
    · rfl
    · exact map_stats_cond tid2 u db.trainers

/-- Witness for claim C8: one battle creation on the two-trainer fixture. -/
theorem trainer_stats_invariants_witness :
    (∀ t ∈ (runRequests demoStore [Request.createBattle ⟨1, 2, 1, none, none⟩]).trainers,
      0 ≤ t.wins ∧ 0 ≤ t.losses) ∧
    (∀ tid t, findTrainer demoStore tid = some t →
      ∃ t', findTrainer
          (runRequests demoStore [Request.createBattle ⟨1, 2, 1, none, none⟩]) tid =
          some t' ∧
        t.rank_points ≤ t'.rank_points ∧ t.wins ≤ t'.wins ∧
          t.losses ≤ t'.losses) ∧
    (∀ trainer_id u,
      (update_trainer demoStore trainer_id u).1.trainers.map
          (fun t => (t.wins, t.losses, t.rank_points)) =
        demoStore.trainers.map (fun t => (t.wins, t.losses, t.rank_points))) :=
  trainer_stats_invariants demoStore [Request.createBattle ⟨1, 2, 1, none, none⟩]
    (by decide)
